import Mathlib

/-!
Shallow embedding of the training harness in
`src/ShuffleNet/pytorch/train.py` and proofs about it.

Tensors are embedded as lists of rationals; an image is the score/feature
vector the model maps it to, an integer class label is a natural number.
The external collaborators the script delegates to (the model architecture,
the cross-entropy criterion, autograd, the optimizer update, the scheduler
update rules) are parameters of the embedding, bundled in `Env`: the script
under verification only orchestrates them, so every theorem below is proved
for all choices of these collaborators.
-/

namespace ShuffleNet

/-- A single image tensor, flattened to its list of entries (and, once the
model has been applied, the list of per-class scores). -/
abbrev Image := List ℚ

/-- One batch yielded by a data loader: parallel lists of image tensors and
integer labels (the source's `image` / `annotation` pair; the label field is
called `labels` here). -/
structure Batch where
  images : List Image
  labels : List ℕ
deriving DecidableEq

/-- One metric's record inside `loggers`: the parallel `epochs` and `value`
lists built by `log_metrics`. -/
structure LoggerCol where
  epochs : List ℕ
  value : List ℚ
deriving DecidableEq

/-- The four metric names created by `initialize_loggers` (the keys of the
`loggers` dict in the source). -/
inductive Metric
  | train_loss
  | val_loss
  | val_top1_acc
  | val_top5_acc
deriving DecidableEq

/-- The `loggers` dict of the source: one column per metric name. -/
structure Loggers where
  train_loss : LoggerCol
  val_loss : LoggerCol
  val_top1_acc : LoggerCol
  val_top5_acc : LoggerCol
deriving DecidableEq

/-- `loggers.get(name)` of the source. -/
def Loggers.get : Loggers → Metric → LoggerCol
  | lg, .train_loss => lg.train_loss
  | lg, .val_loss => lg.val_loss
  | lg, .val_top1_acc => lg.val_top1_acc
  | lg, .val_top5_acc => lg.val_top5_acc

/-- `initialize_loggers` of the source (train.py lines 120-139): all four
columns start empty. -/
def initialize_loggers : Loggers :=
  ⟨⟨[], []⟩, ⟨[], []⟩, ⟨[], []⟩, ⟨[], []⟩⟩

/-- Append one (epoch, value) entry to a column (the two `.append` calls of
`log_metrics`). -/
def LoggerCol.push (c : LoggerCol) (value : ℚ) (epoch : ℕ) : LoggerCol :=
  ⟨c.epochs ++ [epoch], c.value ++ [value]⟩

/-- `log_metrics(loggers, name, value, epoch)` of the source (train.py lines
142-145): appends `epoch` to the named column's `epochs` list and `value` to
its `value` list. -/
def log_metrics (loggers : Loggers) (name : Metric) (value : ℚ) (epoch : ℕ) : Loggers :=
  match name with
  | .train_loss =>
      ⟨loggers.train_loss.push value epoch, loggers.val_loss,
       loggers.val_top1_acc, loggers.val_top5_acc⟩
  | .val_loss =>
      ⟨loggers.train_loss, loggers.val_loss.push value epoch,
       loggers.val_top1_acc, loggers.val_top5_acc⟩
  | .val_top1_acc =>
      ⟨loggers.train_loss, loggers.val_loss,
       loggers.val_top1_acc.push value epoch, loggers.val_top5_acc⟩
  | .val_top5_acc =>
      ⟨loggers.train_loss, loggers.val_loss,
       loggers.val_top1_acc, loggers.val_top5_acc.push value epoch⟩

/-- The class indices of one sample sorted by descending score
(`output.topk(maxk, 1, True, True)` before truncation: largest scores first,
ties kept in index order). -/
def predOrder (scores : List ℚ) : List ℕ :=
  List.insertionSort (fun i j => scores.getD j 0 ≤ scores.getD i 0)
    (List.range scores.length)

/-- `accuracy(output, target, topk)` of the source (train.py lines 384-398):
per sample, the `maxk` highest-scored class indices; `correct` compares them
with the target label; for each `k` in `topk`, the total number of matches
within the first `k` rows of `correct` is scaled by `100 / batch_size`. -/
def accuracy (output : List Image) (target : List ℕ) (topk : List ℕ) : List ℚ :=
  let maxk := topk.foldr max 0
  let batch_size := target.length
  let pred := output.map (fun s => (predOrder s).take maxk)
  topk.map (fun k =>
    let correct_k := ((pred.zip target).map (fun pt => (pt.1.take k).count pt.2)).sum
    (correct_k : ℚ) * (100 / (batch_size : ℚ)))

/-- The model/gradient state carried by the `net` object: its parameters, its
gradient buffers, and the train/eval mode flag toggled by `net.train()` and
`net.eval()`. -/
structure Net (P G : Type) where
  params : P
  grads : G
  trainingMode : Bool
deriving DecidableEq

/-- The external collaborators of the script, out of its design scope (spec
section 1): the model architecture, the loss criterion, autograd and the
optimizer and scheduler update rules. The theorems below hold for every
choice of this bundle. -/
structure Env (P G O S : Type) where
  forward : P → Image → List ℚ
  criterion : List (List ℚ) → List ℕ → ℚ
  gzero : G
  gradOf : P → Batch → G
  optStep : P → G → O → P × O
  schedStepMetric : S → ℚ → S
  schedStep : S → S

/-- The triple `validate` returns: mean loss, top-1 and top-5 accuracy. -/
structure ValResult where
  val_loss : ℚ
  top1_acc : ℚ
  top5_acc : ℚ
deriving DecidableEq

/-- `validate(val_loader, net, criterion, epoch, loggers)` of the source
(train.py lines 348-380): switches the net to eval mode, accumulates loss
and per-batch top-1/top-5 accuracies over all batches with gradients
disabled, divides each accumulator by `len(val_loader)` (the number of
batches), logs the three metrics and returns them. -/
def validate (env : Env P G O S) (val_loader : List Batch) (net : Net P G)
    (epoch : ℕ) (loggers : Loggers) : Net P G × ValResult × Loggers :=
  let net1 : Net P G := ⟨net.params, net.grads, false⟩
  let sums := val_loader.foldl (fun (acc : ℚ × ℚ × ℚ) b =>
    let output := b.images.map (env.forward net1.params)
    let loss := env.criterion output b.labels
    let accs := accuracy output b.labels [1, 5]
    (acc.1 + loss, acc.2.1 + accs.getD 0 0, acc.2.2 + accs.getD 1 0)) (0, 0, 0)
  let top1_acc := sums.2.1 / (val_loader.length : ℚ)
  let top5_acc := sums.2.2 / (val_loader.length : ℚ)
  let val_loss := sums.1 / (val_loader.length : ℚ)
  let lg1 := log_metrics loggers .val_top1_acc top1_acc epoch
  let lg2 := log_metrics lg1 .val_top5_acc top5_acc epoch
  let lg3 := log_metrics lg2 .val_loss val_loss epoch
  (net1, ⟨val_loss, top1_acc, top5_acc⟩, lg3)

/-- The spec-side reading of top-k accuracy for claim C1 (spec section 4.2
and glossary): over the whole validation set, the fraction of samples whose
true label is among the k highest-scored classes, as a percentage. This
definition follows the spec's words; `validate` above follows the code. -/
def datasetTopkAcc (forward : Image → List ℚ) (batches : List Batch) (k : ℕ) : ℚ :=
  let samples := batches.flatMap (fun b => b.images.zip b.labels)
  100 * ((samples.countP
    (fun pt => decide (pt.2 ∈ (predOrder (forward pt.1)).take k)) : ℚ))
    / (samples.length : ℚ)

/-- One iteration of the training loop body (train.py lines 298-330): forward
pass, loss, `optimizer.zero_grad()`, `loss.backward()`, `optimizer.step()`;
returns the updated net and optimizer and the batch's loss value. -/
def trainStep (env : Env P G O S) (b : Batch) (net : Net P G) (opt : O) :
    Net P G × O × ℚ :=
  let output := b.images.map (env.forward net.params)
  let loss := env.criterion output b.labels
  let net1 : Net P G := ⟨net.params, env.gzero, net.trainingMode⟩
  let net2 : Net P G := ⟨net1.params, env.gradOf net1.params b, net1.trainingMode⟩
  let stepped := env.optStep net2.params net2.grads opt
  (⟨stepped.1, net2.grads, net2.trainingMode⟩, stepped.2, loss)

/-- The enumerated loop of `train` (train.py lines 298-345): `i` is
`batch_i`, `acc` the running `batches_loss`; every time `batch_i % 10 == 9`
the mean of the last 10 losses is logged to `train_loss` and the accumulator
reset. -/
def trainLoop (env : Env P G O S) :
    List Batch → Net P G → O → ℕ → ℚ → Loggers → ℕ → Net P G × O × Loggers
  | [], net, opt, _, _, loggers, _ => (net, opt, loggers)
  | b :: bs, net, opt, i, acc, loggers, epoch =>
    let stepped := trainStep env b net opt
    let acc1 := acc + stepped.2.2
    if i % 10 = 9 then
      trainLoop env bs stepped.1 stepped.2.1 (i + 1) 0
        (log_metrics loggers .train_loss (acc1 / 10) epoch) epoch
    else
      trainLoop env bs stepped.1 stepped.2.1 (i + 1) acc1 loggers epoch

/-- `train(train_loader, net, criterion, optimizer, epoch, loggers)` of the
source (train.py lines 291-345): switches the net to train mode and runs the
enumerated batch loop starting at `batch_i = 0` with `batches_loss = 0`. -/
def train (env : Env P G O S) (train_loader : List Batch) (net : Net P G)
    (opt : O) (epoch : ℕ) (loggers : Loggers) : Net P G × O × Loggers :=
  trainLoop env train_loader ⟨net.params, net.grads, true⟩ opt 0 0 loggers epoch

/-- The sequence of per-batch loss values the training loop computes, in
order (each batch's loss is evaluated at the parameters produced by the
updates on the batches before it). -/
def trainLosses (env : Env P G O S) : List Batch → Net P G → O → List ℚ
  | [], _, _ => []
  | b :: bs, net, opt =>
    let stepped := trainStep env b net opt
    stepped.2.2 :: trainLosses env bs stepped.1 stepped.2.1

/-- The means of the consecutive complete windows of 10 of a loss sequence:
window j covers positions 10*j .. 10*j+9. -/
def meansOf10 (l : List ℚ) : List ℚ :=
  (List.range (l.length / 10)).map (fun j => ((l.drop (10 * j)).take 10).sum / 10)

/-- The scheduler classes the configs use: `ReduceLROnPlateau` is stepped
with the validation top-1 accuracy as metric, any other schedule is stepped
with no argument (train.py lines 272-275). -/
inductive SchedKind
  | reduceLROnPlateau
  | fixedSchedule
deriving DecidableEq

/-- A scheduler object: its class and its mutable state. -/
structure Scheduler (S : Type) where
  kind : SchedKind
  state : S
deriving DecidableEq

/-- The checkpoint dict written by `torch.save` (train.py lines 282-288):
epoch number, model parameters, optimizer state, scheduler state and the
full logger state. -/
structure Checkpoint (P O S : Type) where
  epoch : ℕ
  model : P
  optimizer : O
  scheduler : S
  loggers : Loggers
deriving DecidableEq

/-- The checkpoint files on disk, keyed by file name. -/
def Store (P O S : Type) := ℕ → Option (Checkpoint P O S)

/-- `torch.save(state, path)`: (over)write one checkpoint file. -/
def Store.write (st : Store P O S) (path : ℕ) (c : Checkpoint P O S) : Store P O S :=
  fun q => if q = path then some c else st q

/-- The checkpoint value `run_epochs` saves at the end of an epoch (train.py
lines 282-288). -/
def save_checkpoint (epoch : ℕ) (net : Net P G) (opt : O) (sched : Scheduler S)
    (loggers : Loggers) : Checkpoint P O S :=
  ⟨epoch, net.params, opt, sched.state, loggers⟩

/-- `load_checkpoint(checkpoint_path, net, optimizer, scheduler, loggers)` of
the source (train.py lines 153-167): `torch.load` fails on a missing file
(`none`); otherwise the model parameters, optimizer state, scheduler state
and loggers are replaced by the checkpoint's and the start epoch is the
saved epoch plus one. -/
def load_checkpoint (store : Store P O S) (checkpoint_path : ℕ) (net : Net P G)
    (opt : O) (sched : Scheduler S) (loggers : Loggers) :
    Option (Net P G × O × Scheduler S × Loggers × ℕ) :=
  match store checkpoint_path with
  | none => none
  | some c =>
    some (⟨c.model, net.grads, net.trainingMode⟩, c.optimizer,
      ⟨sched.kind, c.scheduler⟩, c.loggers, c.epoch + 1)

/-- The observable steps of one run of the epoch driver, in order. A
`validated` event carries the top-1 accuracy the validation pass returned;
a `schedSteppedMetric` event carries the metric value passed to
`scheduler.step`. -/
inductive Event
  | trained (epoch : ℕ)
  | validated (epoch : ℕ) (top1_acc : ℚ)
  | schedSteppedMetric (metric : ℚ)
  | schedStepped
  | saved (epoch : ℕ)
deriving DecidableEq

/-- An event with its metric values forgotten, used to state the driver's
control flow independently of the computed accuracies. -/
inductive EventShape
  | trainedS (epoch : ℕ)
  | validatedS (epoch : ℕ)
  | schedSteppedMetricS
  | schedSteppedS
  | savedS (epoch : ℕ)
deriving DecidableEq

/-- Forget the metric value of an event. -/
def eshape : Event → EventShape
  | .trained e => .trainedS e
  | .validated e _ => .validatedS e
  | .schedSteppedMetric _ => .schedSteppedMetricS
  | .schedStepped => .schedSteppedS
  | .saved e => .savedS e

/-- Whether a pair of adjacent events is consistent with line 273 of the
source: a metric scheduler step must directly follow a validation event and
carry its top-1 accuracy. -/
def pairOK : Event → Event → Bool
  | .validated _ t, .schedSteppedMetric m => decide (m = t)
  | _, .schedSteppedMetric _ => false
  | _, _ => true

/-- Every metric scheduler step in the trace directly follows a validation
event and carries its top-1 accuracy (checked over all adjacent pairs). -/
def coupled : List Event → Bool
  | a :: b :: rest => pairOK a b && coupled (b :: rest)
  | _ => true

/-- The mutable state the epoch driver threads from epoch to epoch. -/
structure RunState (P G O S : Type) where
  net : Net P G
  opt : O
  sched : Scheduler S
  loggers : Loggers

/-- `scheduler.step` as the driver calls it (train.py lines 272-275): with
the top-1 accuracy for `ReduceLROnPlateau`, with no metric otherwise. -/
def schedulerStep (env : Env P G O S) (sched : Scheduler S) (top1_acc : ℚ) :
    Scheduler S × Event :=
  match sched.kind with
  | .reduceLROnPlateau =>
      (⟨sched.kind, env.schedStepMetric sched.state top1_acc⟩,
       .schedSteppedMetric top1_acc)
  | .fixedSchedule => (⟨sched.kind, env.schedStep sched.state⟩, .schedStepped)

/-- The body of `for epoch in range(start_epoch, total_epochs + 1)` (train.py
lines 252-288), iterated over the list of remaining epoch numbers: train over
all batches, validate, step the scheduler, save a checkpoint. Returns the
final state, the checkpoints written (in order) and the event trace. -/
def epochLoop (env : Env P G O S) (train_loader val_loader : List Batch) :
    List ℕ → RunState P G O S → RunState P G O S × List (Checkpoint P O S) × List Event
  | [], st => (st, [], [])
  | e :: es, st =>
    let tr := train env train_loader st.net st.opt e st.loggers
    let va := validate env val_loader tr.1 e tr.2.2
    let sc := schedulerStep env st.sched va.2.1.top1_acc
    let ck : Checkpoint P O S := save_checkpoint e va.1 tr.2.1 sc.1 va.2.2
    let next := epochLoop env train_loader val_loader es ⟨va.1, tr.2.1, sc.1, va.2.2⟩
    (next.1, ck :: next.2.1,
      .trained e :: .validated e va.2.1.top1_acc :: sc.2 :: .saved e :: next.2.2)

/-- The part of `run_epochs` from the pre-loop validation call onward
(train.py lines 250-288): one validation pass at epoch number 0, then the
epoch loop from `start_epoch` to `total_epochs` inclusive. -/
def runFrom (env : Env P G O S) (total_epochs : ℕ) (train_loader val_loader : List Batch)
    (st : RunState P G O S) (start_epoch : ℕ) :
    RunState P G O S × List (Checkpoint P O S) × List Event :=
  let va := validate env val_loader st.net 0 st.loggers
  let next := epochLoop env train_loader val_loader
    (List.range' start_epoch (total_epochs + 1 - start_epoch))
    ⟨va.1, st.opt, st.sched, va.2.2⟩
  (next.1, next.2.1, .validated 0 va.2.1.top1_acc :: next.2.2)

/-- `run_epochs(config, checkpoint_path)` of the source (train.py lines
170-288), from fresh loggers onward: with no checkpoint path the run starts
at epoch 1; with one, `load_checkpoint` replaces the state and the run
starts at the saved epoch plus one (`none` when the checkpoint file is
missing, matching the uncaught `torch.load` failure). -/
def run_epochs (env : Env P G O S) (total_epochs : ℕ)
    (train_loader val_loader : List Batch) (net0 : Net P G) (opt0 : O)
    (sched0 : Scheduler S) (store : Store P O S) (checkpoint_path : Option ℕ) :
    Option (RunState P G O S × List (Checkpoint P O S) × List Event) :=
  match checkpoint_path with
  | none =>
    some (runFrom env total_epochs train_loader val_loader
      ⟨net0, opt0, sched0, initialize_loggers⟩ 1)
  | some p =>
    match load_checkpoint store p net0 opt0 sched0 initialize_loggers with
    | none => none
    | some lc =>
      some (runFrom env total_epochs train_loader val_loader
        ⟨lc.1, lc.2.1, lc.2.2.1, lc.2.2.2.1⟩ lc.2.2.2.2)

/-- The fixed expected input size `torch.empty(3, 224, 224).size()` (train.py
line 24). -/
def desired_image_shape : List ℕ := [3, 224, 224]

/-- One dataset item as the loader initialization sees it: the shape of its
transformed image tensor. -/
structure Item where
  shape : List ℕ
deriving DecidableEq

/-- How loader initialization can abort (train.py lines 86-87 and 107-108):
the `assert` on the first item's shape, or the `IndexError` of `dataset[0]`
on an empty dataset. -/
inductive InitError
  | wrongTrainImageDim
  | wrongValImageDim
  | indexError
deriving DecidableEq

/-- The shape check of `initialize_train_loader` (train.py lines 86-87): only
`train_dataset[0]` is compared against `desired_image_shape`. -/
def initialize_train_loader_check (ds : List Item) : Except InitError Unit :=
  match ds with
  | [] => .error .indexError
  | it0 :: _ =>
    if it0.shape = desired_image_shape then .ok () else .error .wrongTrainImageDim

/-- The shape check of `initialize_val_loader` (train.py lines 107-108). -/
def initialize_val_loader_check (ds : List Item) : Except InitError Unit :=
  match ds with
  | [] => .error .indexError
  | it0 :: _ =>
    if it0.shape = desired_image_shape then .ok () else .error .wrongValImageDim

/-- Modelled from the spec: a linear congruential step standing in for the
framework's seeded pseudo-random generator, which is library code not in
this repository (spec section 5: shuffling is deterministic given a fixed
random seed). -/
def lcg (s : ℕ) : ℕ := (1103515245 * s + 12345) % 2147483648

/-- Modelled from the spec: Fisher-Yates style draws driven by `lcg`,
standing in for the framework's seeded shuffle of the sampler indices. -/
def drawAll : ℕ → List ℕ → List ℕ
  | _, [] => []
  | s, x :: xs =>
    let s1 := lcg s
    let r := s1 % (x :: xs).length
    (x :: xs).getD r 0 :: drawAll s1 ((x :: xs).eraseIdx r)
termination_by _ l => l.length
decreasing_by
  simp only [List.length_eraseIdx, List.length_cons]
  have h : lcg s % (xs.length + 1) < xs.length + 1 := Nat.mod_lt _ (Nat.succ_pos _)
  rw [if_pos h]
  omega

/-- Modelled from the spec: the shuffled order of the dataset indices as a
function of the seed and the dataset size only. -/
def shuffleIndices (seed n : ℕ) : List ℕ := drawAll seed (List.range n)

/-- Split a list into consecutive batches of size `n` (the loader's batching;
the last batch may be smaller). -/
def chunksOf (n : ℕ) (l : List α) : List (List α) :=
  (List.range ((l.length + n - 1) / n)).map (fun i => (l.drop (n * i)).take n)

/-- The per-run inputs that vary between two invocations of the script: the
random seed, the configured worker count and the wall-clock timestamp used
in checkpoint names. -/
structure RunInputs where
  seed : ℕ
  num_workers : ℕ
  timestamp : ℕ
deriving DecidableEq

/-- Modelled from the spec: the batch sequence the shuffled training loader
of `initialize_train_loader` (train.py lines 89-94, `shuffle=True`) yields
for one epoch over a dataset of (image, label) samples. Worker processes
only prefetch; consumption order is the shuffled sequential order. -/
def train_loader_batches (inputs : RunInputs) (dataset : List (Image × ℕ))
    (batch_size : ℕ) : List Batch :=
  let perm := shuffleIndices inputs.seed dataset.length
  let shuffled := perm.map (fun i => dataset.getD i ([], 0))
  (chunksOf batch_size shuffled).map (fun c => ⟨c.map Prod.fst, c.map Prod.snd⟩)

/-- A concrete instantiation of the external collaborators, used to evaluate
the embedding at concrete inputs: parameters, gradients, optimizer and
scheduler states are single rationals and the model returns the image's own
entry list as its class scores. -/
def envId : Env ℚ ℚ ℚ ℚ :=
  ⟨fun _ img => img, fun _ _ => 0, 0, fun _ _ => 0, fun p g o => (p + g, o),
   fun s m => s + m, fun s => s + 1⟩

/-- A concrete net state for evaluating the embedding. -/
def netId : Net ℚ ℚ := ⟨0, 0, true⟩

/-- A concrete validation set over five classes, split into two batches of
unequal size (2 and 1): three samples, of which the two with score vector
`[9, 0, 0, 0, 0]` have their true label top-ranked. -/
def cxBatches : List Batch :=
  [⟨[[9, 0, 0, 0, 0], [9, 8, 0, 0, 0]], [0, 1]⟩, ⟨[[9, 0, 0, 0, 0]], [0]⟩]

/-- The same three samples as `cxBatches`, partitioned into three batches of
equal size 1. -/
def cxBatchesEq : List Batch :=
  [⟨[[9, 0, 0, 0, 0]], [0]⟩, ⟨[[9, 8, 0, 0, 0]], [1]⟩, ⟨[[9, 0, 0, 0, 0]], [0]⟩]

/-- A concrete dataset whose first item has the expected shape and whose
second item does not. -/
def dsBad : List Item := [⟨[3, 224, 224]⟩, ⟨[3, 224, 223]⟩]

/-- A concrete checkpoint for evaluating the driver at a resume point. -/
def ckpt0 : Checkpoint ℚ ℚ ℚ := ⟨3, 5, 6, 7, initialize_loggers⟩

/-- A concrete checkpoint store holding `ckpt0` under file name 7. -/
def store0 : Store ℚ ℚ ℚ := Store.write (fun _ => none) 7 ckpt0

/-- A concrete driver state for evaluating the epoch loop. -/
def st0 : RunState ℚ ℚ ℚ ℚ := ⟨netId, 0, ⟨.reduceLROnPlateau, 0⟩, initialize_loggers⟩

/-- The number of matches between the target labels and the first `k` of the
`maxk` top-ranked predictions, summed over a batch: the value
`correct[:k].view(-1).float().sum(0)` computes inside `accuracy`. -/
def correctCounts (output : List Image) (target : List ℕ) (maxk k : ℕ) : ℕ :=
  (((output.map (fun s => (predOrder s).take maxk)).zip target).map
    (fun pt => (pt.1.take k).count pt.2)).sum

/-! ## Logger state: claim C9 -/

/-- The named column after `log_metrics` is the old column with the one new
entry appended. -/
theorem log_metrics_get_self (lg : Loggers) (name : Metric) (v : ℚ) (e : ℕ) :
    (log_metrics lg name v e).get name = (lg.get name).push v e := by
  cases name <;> rfl

/-- `log_metrics` leaves every other column unchanged. -/
theorem log_metrics_get_other (lg : Loggers) (name n : Metric) (v : ℚ) (e : ℕ)
    (h : ¬ n = name) : (log_metrics lg name v e).get n = lg.get n := by
  cases name <;> cases n <;> first | rfl | exact absurd rfl h

/-- C9: each `log_metrics` call appends exactly one epoch and one value to
the named metric's column, keeping every previously logged entry, changes no
other column, and therefore preserves the invariant that every column's
`epochs` and `value` lists have equal length. -/
theorem C9_log_metrics_append_invariant (lg : Loggers) (name : Metric) (v : ℚ)
    (e : ℕ) (hlen : ∀ n, (lg.get n).epochs.length = (lg.get n).value.length) :
    ((log_metrics lg name v e).get name).epochs = (lg.get name).epochs ++ [e]
    ∧ ((log_metrics lg name v e).get name).value = (lg.get name).value ++ [v]
    ∧ (∀ n, n = name ∨ (log_metrics lg name v e).get n = lg.get n)
    ∧ (∀ n, ((log_metrics lg name v e).get n).epochs.length
        = ((log_metrics lg name v e).get n).value.length) := by
  refine ⟨by rw [log_metrics_get_self]; rfl, by rw [log_metrics_get_self]; rfl, ?_, ?_⟩
  · intro n
    by_cases h : n = name
    · exact Or.inl h
    · exact Or.inr (log_metrics_get_other lg name n v e h)
  · intro n
    by_cases h : n = name
    · subst h
      rw [log_metrics_get_self]
      simp [LoggerCol.push, hlen n]
    · rw [log_metrics_get_other lg name n v e h]
      exact hlen n

/-- C9 at a concrete input: appending the value 5 at epoch 2 to the
`train_loss` column of freshly initialized loggers. -/
theorem C9_log_metrics_append_invariant_witness :
    ((log_metrics initialize_loggers .train_loss 5 2).get .train_loss).epochs
      = (initialize_loggers.get .train_loss).epochs ++ [2]
    ∧ ((log_metrics initialize_loggers .train_loss 5 2).get .train_loss).value
      = (initialize_loggers.get .train_loss).value ++ [5]
    ∧ (∀ n, n = Metric.train_loss
        ∨ (log_metrics initialize_loggers .train_loss 5 2).get n = initialize_loggers.get n)
    ∧ (∀ n, ((log_metrics initialize_loggers .train_loss 5 2).get n).epochs.length
        = ((log_metrics initialize_loggers .train_loss 5 2).get n).value.length) :=
  C9_log_metrics_append_invariant initialize_loggers .train_loss 5 2
    (fun n => by cases n <;> rfl)

/-! ## Checkpoint round-trip: claim C2 -/

/-- C2: saving a checkpoint at epoch `e` and loading it back restores
exactly the saved model parameters, optimizer state, scheduler state and
logger state into the running objects, and resumes at epoch `e + 1`. -/
theorem C2_checkpoint_round_trip (store : Store P O S) (path : ℕ) (e : ℕ)
    (net : Net P G) (opt : O) (sched : Scheduler S) (lg : Loggers)
    (net0 : Net P G) (opt0 : O) (sched0 : Scheduler S) (lg0 : Loggers) :
    load_checkpoint (store.write path (save_checkpoint e net opt sched lg)) path
      net0 opt0 sched0 lg0
    = some (⟨net.params, net0.grads, net0.trainingMode⟩, opt,
        ⟨sched0.kind, sched.state⟩, lg, e + 1) := by
  simp [load_checkpoint, save_checkpoint, Store.write]

/-! ## Seed determinism of the training loader: claim C6 -/

/-- C6: the batch sequence of the shuffled training loader is a function of
the random seed and the dataset alone: two runs that fix the same seed
consume identical batches whatever their worker counts and timestamps. -/
theorem C6_seeded_batch_order_deterministic (dataset : List (Image × ℕ))
    (batch_size seed w1 w2 t1 t2 : ℕ) :
    train_loader_batches ⟨seed, w1, t1⟩ dataset batch_size
      = train_loader_batches ⟨seed, w2, t2⟩ dataset batch_size := rfl

/-! ## Validation is parameter- and gradient-pure: claim C8 -/

/-- C8: `validate` mutates no model parameters and touches no gradient
buffers: the net it returns carries exactly the parameters and gradients it
was given (only the train/eval mode flag is switched), for every model,
criterion and validation set. -/
theorem C8_validate_preserves_params (env : Env P G O S) (val_loader : List Batch)
    (net : Net P G) (epoch : ℕ) (loggers : Loggers) :
    (validate env val_loader net epoch loggers).1.params = net.params
    ∧ (validate env val_loader net epoch loggers).1.grads = net.grads :=
  ⟨rfl, rfl⟩

/-! ## The shape check only inspects the first item: claim C7 -/

/-- C7 counterexample: `dsBad` contains an item (index 1) whose shape is not
the desired input shape, yet loader initialization succeeds, because the
source's assert compares only `dataset[0]` against `desired_image_shape`. -/
theorem C7_counterexample :
    (dsBad.getD 1 ⟨[]⟩).shape ≠ desired_image_shape
    ∧ initialize_train_loader_check dsBad = Except.ok ()
    ∧ initialize_val_loader_check dsBad = Except.ok () := by
  refine ⟨?_, rfl, rfl⟩
  decide

/-- C7 as amended: loader initialization aborts exactly when the first
item's tensor shape differs from the expected fixed input size; a mismatch
in any later item is not detected by this check. -/
theorem C7_first_item_shape_check (it0 : Item) (rest : List Item) :
    (initialize_train_loader_check (it0 :: rest) = Except.ok ()
      ↔ it0.shape = desired_image_shape)
    ∧ (initialize_val_loader_check (it0 :: rest) = Except.ok ()
      ↔ it0.shape = desired_image_shape) := by
  constructor <;>
  · simp only [initialize_train_loader_check, initialize_val_loader_check]
    by_cases h : it0.shape = desired_image_shape <;> simp [h]

/-! ## Top-k accuracy bounds and monotonicity: claim C4 -/

/-- The ranked class indices of one sample are pairwise distinct
(`topk` returns distinct indices). -/
theorem predOrder_nodup (s : List ℚ) : (predOrder s).Nodup := by
  have h : (predOrder s).Perm (List.range s.length) := List.perm_insertionSort _ _
  exact h.nodup_iff.mpr (List.nodup_range _)

/-- A target label matches at most one entry among the first `k` of a
sample's ranked predictions. -/
theorem count_take_predOrder_le_one (s : List ℚ) (t m k : ℕ) :
    (((predOrder s).take m).take k).count t ≤ 1 := by
  have hsub : List.Sublist (((predOrder s).take m).take k) (predOrder s) :=
    (List.take_sublist _ _).trans (List.take_sublist _ _)
  exact List.nodup_iff_count_le_one.mp (List.Nodup.sublist hsub (predOrder_nodup s)) t

/-- `accuracy` at `topk = (1, 5)`, unfolded: the pair of match counts scaled
by `100 / batch_size`. -/
theorem accuracy_one_five (output : List Image) (target : List ℕ) :
    accuracy output target [1, 5]
      = [(correctCounts output target 5 1 : ℚ) * (100 / (target.length : ℚ)),
         (correctCounts output target 5 5 : ℚ) * (100 / (target.length : ℚ))] := by
  simp [accuracy, correctCounts, Function.comp_def]

/-- The match count over a batch never exceeds the batch size. -/
theorem correctCounts_le_length (output : List Image) (target : List ℕ) (k : ℕ) :
    correctCounts output target 5 k ≤ target.length := by
  unfold correctCounts
  set pred := output.map (fun s => (predOrder s).take 5) with hpred
  have hstep : ((pred.zip target).map (fun pt => (pt.1.take k).count pt.2)).sum
      ≤ ((pred.zip target).map (fun pt => (pt.1.take k).count pt.2)).length • 1 := by
    refine List.sum_le_card_nsmul _ 1 ?_
    intro x hx
    obtain ⟨pt, hpt, hval⟩ := List.mem_map.mp hx
    obtain ⟨hp, _⟩ := List.of_mem_zip hpt
    obtain ⟨s, _, hs⟩ := List.mem_map.mp (hpred ▸ hp)
    rw [← hval, ← hs]
    exact count_take_predOrder_le_one s pt.2 5 k
  refine le_trans hstep ?_
  simp only [smul_eq_mul, mul_one, List.length_map, List.length_zip]
  exact min_le_right _ _

/-- The match count grows with `k`: a top-1 hit is a top-5 hit. -/
theorem correctCounts_mono (output : List Image) (target : List ℕ) :
    correctCounts output target 5 1 ≤ correctCounts output target 5 5 := by
  unfold correctCounts
  refine List.sum_le_sum ?_
  intro pt _
  have h1 : pt.1.take 1 = (pt.1.take 5).take 1 := by
    rw [List.take_take]; norm_num
  have hsub : List.Sublist (pt.1.take 1) (pt.1.take 5) :=
    h1 ▸ List.take_sublist 1 (pt.1.take 5)
  exact hsub.count_le pt.2

/-- C4: on every batch with at least one sample, both values `accuracy`
returns for `topk = (1, 5)` lie in [0, 100], and the top-1 value is at most
the top-5 value. -/
theorem C4_topk_accuracy_bounds (output : List Image) (target : List ℕ)
    (h : 0 < target.length) :
    (0 ≤ (accuracy output target [1, 5]).getD 0 0
      ∧ (accuracy output target [1, 5]).getD 0 0 ≤ 100)
    ∧ (0 ≤ (accuracy output target [1, 5]).getD 1 0
      ∧ (accuracy output target [1, 5]).getD 1 0 ≤ 100)
    ∧ (accuracy output target [1, 5]).getD 0 0
      ≤ (accuracy output target [1, 5]).getD 1 0 := by
  have hn : (0 : ℚ) < (target.length : ℚ) := by exact_mod_cast h
  have hub : ∀ k : ℕ, correctCounts output target 5 k ≤ target.length →
      (correctCounts output target 5 k : ℚ) * (100 / (target.length : ℚ)) ≤ 100 := by
    intro k hk
    have hd : (0 : ℚ) ≤ 100 / (target.length : ℚ) :=
      div_nonneg (by norm_num) (Nat.cast_nonneg _)
    calc (correctCounts output target 5 k : ℚ) * (100 / (target.length : ℚ))
        ≤ (target.length : ℚ) * (100 / (target.length : ℚ)) :=
          mul_le_mul_of_nonneg_right (by exact_mod_cast hk) hd
      _ = 100 := by field_simp
  have hnn : ∀ k : ℕ,
      (0 : ℚ) ≤ (correctCounts output target 5 k : ℚ) * (100 / (target.length : ℚ)) :=
    fun k => mul_nonneg (Nat.cast_nonneg _) (div_nonneg (by norm_num) (Nat.cast_nonneg _))
  rw [accuracy_one_five]
  refine ⟨⟨hnn 1, ?_⟩, ⟨hnn 5, ?_⟩, ?_⟩
  · exact hub 1 (correctCounts_le_length output target 1)
  · exact hub 5 (correctCounts_le_length output target 5)
  · refine mul_le_mul_of_nonneg_right ?_
      (div_nonneg (by norm_num) (Nat.cast_nonneg _))
    exact_mod_cast correctCounts_mono output target

/-- C4 at a concrete input: a one-sample batch over five classes whose true
label is ranked third. -/
theorem C4_topk_accuracy_bounds_witness :
    (0 ≤ (accuracy [[5, 4, 3, 2, 1]] [2] [1, 5]).getD 0 0
      ∧ (accuracy [[5, 4, 3, 2, 1]] [2] [1, 5]).getD 0 0 ≤ 100)
    ∧ (0 ≤ (accuracy [[5, 4, 3, 2, 1]] [2] [1, 5]).getD 1 0
      ∧ (accuracy [[5, 4, 3, 2, 1]] [2] [1, 5]).getD 1 0 ≤ 100)
    ∧ (accuracy [[5, 4, 3, 2, 1]] [2] [1, 5]).getD 0 0
      ≤ (accuracy [[5, 4, 3, 2, 1]] [2] [1, 5]).getD 1 0 :=
  C4_topk_accuracy_bounds [[5, 4, 3, 2, 1]] [2] (by norm_num)

/-! ## Validation accuracy vs the per-sample dataset fraction: claim C1 -/

/-- A left fold accumulating three running sums equals the componentwise
sums added to the start value. -/
theorem foldl_triple_sum (f g h : Batch → ℚ) :
    ∀ (bs : List Batch) (a : ℚ × ℚ × ℚ),
      bs.foldl (fun acc b => (acc.1 + f b, acc.2.1 + g b, acc.2.2 + h b)) a
        = (a.1 + (bs.map f).sum, a.2.1 + (bs.map g).sum, a.2.2 + (bs.map h).sum)
  | [], a => by simp
  | b :: bs, a => by
    simp only [List.foldl_cons, List.map_cons, List.sum_cons]
    rw [foldl_triple_sum f g h bs]
    simp [add_assoc]

/-- The top-1 accuracy `validate` returns is the sum of the per-batch top-1
percentages divided by the number of batches, and likewise for top-5. -/
theorem validate_topk_eq (env : Env P G O S) (batches : List Batch)
    (net : Net P G) (epoch : ℕ) (L : Loggers) :
    (validate env batches net epoch L).2.1.top1_acc
      = (batches.map (fun b =>
          (accuracy (b.images.map (env.forward net.params)) b.labels [1, 5]).getD 0 0)).sum
        / (batches.length : ℚ)
    ∧ (validate env batches net epoch L).2.1.top5_acc
      = (batches.map (fun b =>
          (accuracy (b.images.map (env.forward net.params)) b.labels [1, 5]).getD 1 0)).sum
        / (batches.length : ℚ) := by
  simp only [validate, foldl_triple_sum]
  constructor <;> simp

/-- Projections of `accuracy` at `topk = (1, 5)`. -/
theorem accuracy_getD_zero (output : List Image) (target : List ℕ) :
    (accuracy output target [1, 5]).getD 0 0
      = (correctCounts output target 5 1 : ℚ) * (100 / (target.length : ℚ)) := by
  rw [accuracy_one_five]; rfl

/-- Projections of `accuracy` at `topk = (1, 5)`. -/
theorem accuracy_getD_one (output : List Image) (target : List ℕ) :
    (accuracy output target [1, 5]).getD 1 0
      = (correctCounts output target 5 5 : ℚ) * (100 / (target.length : ℚ)) := by
  rw [accuracy_one_five]; rfl

/-- In a duplicate-free prediction list the match count is the membership
indicator. -/
theorem count_take_predOrder_indicator (s : List ℚ) (t k : ℕ) :
    ((predOrder s).take k).count t
      = if t ∈ (predOrder s).take k then 1 else 0 := by
  split
  · next hm =>
    refine le_antisymm ?_ (List.count_pos_iff.mpr hm)
    have h := count_take_predOrder_le_one s t k k
    rwa [List.take_take, min_self] at h
  · next hm => exact List.count_eq_zero.mpr hm

/-- Summing Boolean indicators over a list counts the satisfying elements. -/
theorem sum_map_indicator (p : Image × ℕ → Bool) :
    ∀ l : List (Image × ℕ),
      (l.map (fun x => if p x then (1 : ℕ) else 0)).sum = l.countP p
  | [] => rfl
  | x :: l => by
    by_cases h : p x <;>
      simp [List.countP_cons, h, sum_map_indicator p l, Nat.add_comm]

/-- The batch match count, for outputs produced by a model applied to the
batch images, counts the samples whose label is among the first `k` ranked
classes. -/
theorem correctCounts_map_forward (F : Image → List ℚ) (imgs : List Image)
    (tgt : List ℕ) (k : ℕ) (hk : k ≤ 5) :
    correctCounts (imgs.map F) tgt 5 k
      = (imgs.zip tgt).countP (fun pt => decide (pt.2 ∈ (predOrder (F pt.1)).take k)) := by
  unfold correctCounts
  rw [List.map_map, List.zip_map_left, List.map_map]
  rw [← sum_map_indicator (fun pt => decide (pt.2 ∈ (predOrder (F pt.1)).take k))]
  refine congrArg List.sum (List.map_congr_left ?_)
  intro pt _
  simp only [Prod.map_fst, Prod.map_snd, Function.comp_apply, id_eq]
  rw [List.take_take, min_eq_left hk, count_take_predOrder_indicator]
  simp

/-- Counting over a flattened list of per-batch sample lists is the sum of
the per-batch counts. -/
theorem countP_flatMap_eq (p : Image × ℕ → Bool) (f : Batch → List (Image × ℕ)) :
    ∀ bs : List Batch,
      (bs.flatMap f).countP p = (bs.map (fun b => (f b).countP p)).sum
  | [] => rfl
  | b :: bs => by
    simp [List.flatMap_cons, List.countP_append, countP_flatMap_eq p f bs]

/-- Scaling every term of a sum by the same factor scales the sum. -/
theorem sum_map_mul_right_const (f : Batch → ℚ) (c : ℚ) :
    ∀ l : List Batch, (l.map (fun b => f b * c)).sum = (l.map f).sum * c
  | [] => by simp
  | b :: l => by simp [sum_map_mul_right_const f c l, add_mul]

/-- Summing the constant `m` over a list of batches. -/
theorem sum_map_const_nat (m : ℕ) :
    ∀ l : List Batch, (l.map (fun _ => m)).sum = l.length * m
  | [] => by simp
  | b :: l => by simp [sum_map_const_nat m l, Nat.succ_mul, Nat.add_comm]

/-- The length of a flattened list of per-batch sample lists. -/
theorem length_flatMap_eq (f : Batch → List (Image × ℕ)) :
    ∀ bs : List Batch,
      (bs.flatMap f).length = (bs.map (fun b => (f b).length)).sum
  | [] => rfl
  | b :: bs => by simp [List.flatMap_cons, length_flatMap_eq f bs]

/-- Casting a sum of naturals to the rationals, termwise. -/
theorem cast_sum_map (g : Batch → ℕ) :
    ∀ l : List Batch, (((l.map g).sum : ℕ) : ℚ) = (l.map (fun b => (g b : ℚ))).sum
  | [] => by simp
  | b :: l => by simp [cast_sum_map g l]

/-- C1 counterexample: on `cxBatches` — two batches of sizes 2 and 1, with
per-batch top-1 accuracies 50% and 100% — `validate` returns a top-1
accuracy of 75, while the fraction of samples of the whole set whose label
is top-ranked is 2/3, i.e. 200/3 percent: the returned value is the
unweighted mean of per-batch percentages, not the per-sample dataset
average, when the final batch is smaller. -/
theorem C1_counterexample :
    (validate envId cxBatches netId 0 initialize_loggers).2.1.top1_acc = 75
    ∧ datasetTopkAcc (envId.forward netId.params) cxBatches 1 = 200 / 3
    ∧ (validate envId cxBatches netId 0 initialize_loggers).2.1.top1_acc
      ≠ datasetTopkAcc (envId.forward netId.params) cxBatches 1 := by
  refine ⟨?_, ?_, ?_⟩
  · norm_num [validate, accuracy, predOrder, envId, netId, cxBatches,
      List.insertionSort, List.orderedInsert, List.range, List.range.loop]
  · norm_num [datasetTopkAcc, predOrder, envId, netId, cxBatches,
      List.insertionSort, List.orderedInsert, List.range, List.range.loop,
      List.countP, List.countP.go]
  · intro h
    rw [show (validate envId cxBatches netId 0 initialize_loggers).2.1.top1_acc = 75 by
        norm_num [validate, accuracy, predOrder, envId, netId, cxBatches,
          List.insertionSort, List.orderedInsert, List.range, List.range.loop],
      show datasetTopkAcc (envId.forward netId.params) cxBatches 1 = 200 / 3 by
        norm_num [datasetTopkAcc, predOrder, envId, netId, cxBatches,
          List.insertionSort, List.orderedInsert, List.range, List.range.loop,
          List.countP, List.countP.go]] at h
    norm_num at h

/-- C1 as amended: when every batch of the validation set has the same
positive size, the top-1 and top-5 accuracies `validate` returns equal the
per-sample dataset fractions (as percentages) of the spec; with unequal
batch sizes the returned value is the unweighted mean of the per-batch
percentages, which can differ (see the counterexample). -/
theorem C1_equal_batches_per_sample (env : Env P G O S) (batches : List Batch)
    (net : Net P G) (epoch : ℕ) (L : Loggers) (m : ℕ) (hne : batches ≠ [])
    (hm : 0 < m)
    (hsize : ∀ b ∈ batches, b.images.length = m ∧ b.labels.length = m) :
    (validate env batches net epoch L).2.1.top1_acc
      = datasetTopkAcc (env.forward net.params) batches 1
    ∧ (validate env batches net epoch L).2.1.top5_acc
      = datasetTopkAcc (env.forward net.params) batches 5 := by
  have hBn : 0 < batches.length := List.length_pos.mpr hne
  have hB : ((batches.length : ℕ) : ℚ) ≠ 0 := by positivity
  have hmQ : ((m : ℕ) : ℚ) ≠ 0 := by positivity
  obtain ⟨ht1, ht5⟩ := validate_topk_eq env batches net epoch L
  have hlen : (batches.flatMap (fun b => b.images.zip b.labels)).length
      = batches.length * m := by
    rw [length_flatMap_eq]
    rw [List.map_congr_left (fun b hb => by
      obtain ⟨h1, h2⟩ := hsize b hb
      show (b.images.zip b.labels).length = m
      simp [List.length_zip, h1, h2])]
    exact sum_map_const_nat m batches
  have key : ∀ k : ℕ, k ≤ 5 →
      (batches.map (fun b =>
        (correctCounts (b.images.map (env.forward net.params)) b.labels 5 k : ℚ)
          * (100 / (b.labels.length : ℚ)))).sum / (batches.length : ℚ)
      = datasetTopkAcc (env.forward net.params) batches k := by
    intro k hk
    have hcount : ((batches.flatMap (fun b => b.images.zip b.labels)).countP
        (fun pt => decide (pt.2 ∈ (predOrder (env.forward net.params pt.1)).take k)))
        = (batches.map (fun b =>
            correctCounts (b.images.map (env.forward net.params)) b.labels 5 k)).sum := by
      rw [countP_flatMap_eq]
      exact congrArg List.sum (List.map_congr_left (fun b _ =>
        (correctCounts_map_forward (env.forward net.params) b.images b.labels k hk).symm))
    have hmap : batches.map (fun b =>
        (correctCounts (b.images.map (env.forward net.params)) b.labels 5 k : ℚ)
          * (100 / (b.labels.length : ℚ)))
        = batches.map (fun b =>
        (correctCounts (b.images.map (env.forward net.params)) b.labels 5 k : ℚ)
          * (100 / (m : ℚ))) :=
      List.map_congr_left (fun b hb => by rw [(hsize b hb).2])
    rw [hmap, sum_map_mul_right_const, datasetTopkAcc]
    simp only [hcount, hlen, ← cast_sum_map]
    rw [Nat.cast_mul]
    field_simp
    ring
  constructor
  · rw [ht1, List.map_congr_left (fun b _ => accuracy_getD_zero
      (b.images.map (env.forward net.params)) b.labels)]
    exact key 1 (by norm_num)
  · rw [ht5, List.map_congr_left (fun b _ => accuracy_getD_one
      (b.images.map (env.forward net.params)) b.labels)]
    exact key 5 (by norm_num)

/-- C1's amended theorem at a concrete input: the three samples of the
counterexample partitioned into three batches of size 1. -/
theorem C1_equal_batches_per_sample_witness :
    (validate envId cxBatchesEq netId 0 initialize_loggers).2.1.top1_acc
      = datasetTopkAcc (envId.forward netId.params) cxBatchesEq 1
    ∧ (validate envId cxBatchesEq netId 0 initialize_loggers).2.1.top5_acc
      = datasetTopkAcc (envId.forward netId.params) cxBatchesEq 5 :=
  C1_equal_batches_per_sample envId cxBatchesEq netId 0 initialize_loggers 1
    (by decide) (by decide) (by decide)

/-! ## Windowed training-loss logging: claim C5 -/

/-- The training loop computes one loss per batch. -/
theorem trainLosses_length (env : Env P G O S) :
    ∀ (bs : List Batch) (net : Net P G) (opt : O),
      (trainLosses env bs net opt).length = bs.length
  | [], _, _ => rfl
  | b :: bs, net, opt => by
    simp [trainLosses, trainLosses_length env bs]

/-- A sequence shorter than one window yields no window means. -/
theorem meansOf10_short (l : List ℚ) (h : l.length < 10) : meansOf10 l = [] := by
  unfold meansOf10
  rw [Nat.div_eq_of_lt h]
  rfl

/-- Peeling one complete window of 10 off the front of a loss sequence. -/
theorem meansOf10_cons (w rest : List ℚ) (h : w.length = 10) :
    meansOf10 (w ++ rest) = (w.sum / 10) :: meansOf10 rest := by
  unfold meansOf10
  have hlen : (w ++ rest).length = rest.length + 10 := by
    rw [List.length_append, h]; omega
  rw [hlen, Nat.add_div_right _ (by norm_num), List.range_succ_eq_map]
  simp only [List.map_cons, List.map_map]
  refine congrArg₂ List.cons ?_ ?_
  · rw [Nat.mul_zero, List.drop_zero, List.take_left' h]
  · refine List.map_congr_left ?_
    intro j _
    simp only [Function.comp_apply]
    have hdrop : (w ++ rest).drop (10 * (j + 1)) = rest.drop (10 * j) := by
      have h1 : 10 * (j + 1) = 10 + 10 * j := by ring
      rw [h1, ← List.drop_drop, List.drop_left' h]
    rw [hdrop]

/-- The effect of the enumerated training loop on the `train_loss` column,
for a window position matching the batch index: the complete windows of the
pending losses followed by the remaining batch losses are logged, each with
the current epoch number. -/
theorem trainLoop_train_loss (env : Env P G O S) (bs : List Batch) :
    ∀ (net : Net P G) (opt : O) (i : ℕ) (pending : List ℚ) (L : Loggers)
      (epoch : ℕ), i % 10 = pending.length → pending.length < 10 →
      ((trainLoop env bs net opt i pending.sum L epoch).2.2).train_loss
        = ⟨L.train_loss.epochs
            ++ List.replicate
              (meansOf10 (pending ++ trainLosses env bs net opt)).length epoch,
           L.train_loss.value ++ meansOf10 (pending ++ trainLosses env bs net opt)⟩ := by
  induction bs with
  | nil =>
    intro net opt i pending L epoch hp hlt
    simp only [trainLoop, trainLosses, List.append_nil]
    rw [meansOf10_short pending hlt]
    simp
  | cons b bs ih =>
    intro net opt i pending L epoch hp hlt
    simp only [trainLoop, trainLosses]
    by_cases h9 : i % 10 = 9
    · rw [if_pos h9]
      have hnext : (i + 1) % 10 = ([] : List ℚ).length := by
        simp only [List.length_nil]
        omega
      have hrec := ih (trainStep env b net opt).1 (trainStep env b net opt).2.1
        (i + 1) [] (log_metrics L .train_loss
          ((pending.sum + (trainStep env b net opt).2.2) / 10) epoch) epoch
        hnext (by norm_num)
      simp only [List.sum_nil] at hrec
      rw [hrec]
      have hw : (pending ++ [(trainStep env b net opt).2.2]).length = 10 := by
        rw [List.length_append, List.length_cons, List.length_nil]
        omega
      have hsplit : pending ++ (trainStep env b net opt).2.2
            :: trainLosses env bs (trainStep env b net opt).1 (trainStep env b net opt).2.1
          = (pending ++ [(trainStep env b net opt).2.2])
            ++ trainLosses env bs (trainStep env b net opt).1 (trainStep env b net opt).2.1 := by
        rw [List.append_assoc]; rfl
      rw [hsplit, meansOf10_cons _ _ hw]
      have hsum : (pending ++ [(trainStep env b net opt).2.2]).sum
          = pending.sum + (trainStep env b net opt).2.2 := by simp
      rw [hsum]
      simp only [log_metrics, LoggerCol.push, List.length_cons, List.nil_append,
        List.replicate_succ]
      rw [List.append_assoc, List.append_assoc]
      rfl
    · rw [if_neg h9]
      have hlt9 : pending.length < 9 := by omega
      have hnext : (i + 1) % 10 = (pending ++ [(trainStep env b net opt).2.2]).length := by
        rw [List.length_append, List.length_cons, List.length_nil]
        omega
      have hrec := ih (trainStep env b net opt).1 (trainStep env b net opt).2.1
        (i + 1) (pending ++ [(trainStep env b net opt).2.2]) L epoch hnext
        (by rw [List.length_append, List.length_cons, List.length_nil]; omega)
      have hsum : (pending ++ [(trainStep env b net opt).2.2]).sum
          = pending.sum + (trainStep env b net opt).2.2 := by simp
      rw [hsum] at hrec
      rw [hrec, List.append_assoc]
      rfl

/-- C5: in every epoch over `N` training batches, exactly `N / 10` (integer
division) entries are appended to the `train_loss` logger, each carrying the
epoch number, and the j-th appended value is the arithmetic mean (sum
divided by 10) of the losses of batches `10 * j .. 10 * j + 9`. -/
theorem C5_train_loss_window_means (env : Env P G O S) (batches : List Batch)
    (net : Net P G) (opt : O) (epoch : ℕ) (L : Loggers) :
    ((train env batches net opt epoch L).2.2).train_loss
      = ⟨L.train_loss.epochs ++ List.replicate (batches.length / 10) epoch,
         L.train_loss.value
           ++ meansOf10 (trainLosses env batches ⟨net.params, net.grads, true⟩ opt)⟩
    ∧ (meansOf10 (trainLosses env batches ⟨net.params, net.grads, true⟩ opt)).length
        = batches.length / 10
    ∧ meansOf10 (trainLosses env batches ⟨net.params, net.grads, true⟩ opt)
        = (List.range (batches.length / 10)).map (fun j =>
            (((trainLosses env batches ⟨net.params, net.grads, true⟩ opt).drop
              (10 * j)).take 10).sum / 10) := by
  have hlen : (meansOf10 (trainLosses env batches ⟨net.params, net.grads, true⟩ opt)).length
      = batches.length / 10 := by
    simp [meansOf10, trainLosses_length]
  have hmain := trainLoop_train_loss env batches ⟨net.params, net.grads, true⟩ opt
    0 [] L epoch rfl (by norm_num)
  simp only [List.sum_nil, List.nil_append] at hmain
  refine ⟨?_, hlen, ?_⟩
  · rw [train, hmain, hlen]
  · rw [meansOf10, trainLosses_length]

/-! ## The epoch driver's control flow: claims C3 and C10 -/

/-- Stepping a scheduler never changes its class. -/
theorem schedulerStep_kind (env : Env P G O S) (sched : Scheduler S) (t : ℚ) :
    (schedulerStep env sched t).1.kind = sched.kind := by
  cases h : sched.kind <;> simp [schedulerStep, h]

/-- The shape of the epoch loop's event trace: for each remaining epoch
number, in order, a training pass, a validation pass, one scheduler step of
the kind matching the scheduler's class, and a checkpoint save. -/
theorem epochLoop_shape (env : Env P G O S) (tB vB : List Batch) :
    ∀ (es : List ℕ) (st : RunState P G O S),
      ((epochLoop env tB vB es st).2.2).map eshape
        = es.flatMap (fun e => [.trainedS e, .validatedS e,
            if st.sched.kind = .reduceLROnPlateau then EventShape.schedSteppedMetricS
            else EventShape.schedSteppedS, .savedS e]) := by
  intro es
  induction es with
  | nil => intro st; rfl
  | cons e es ih =>
    intro st
    simp only [epochLoop, List.flatMap_cons, List.map_cons]
    cases hk : st.sched.kind with
    | reduceLROnPlateau =>
      simp only [schedulerStep, hk, eshape, if_pos]
      rw [ih]
      simp [hk]
    | fixedSchedule =>
      simp only [schedulerStep, hk, eshape]
      rw [ih]
      simp [hk]

/-- The scheduler-step event is either a metric step carrying the given
top-1 accuracy or a plain step. -/
theorem schedulerStep_event (env : Env P G O S) (sched : Scheduler S) (t : ℚ) :
    (schedulerStep env sched t).2 = Event.schedSteppedMetric t
    ∨ (schedulerStep env sched t).2 = Event.schedStepped := by
  cases h : sched.kind <;> simp [schedulerStep, h]

/-- A save event can precede any trace whose pairs are coupled and which
does not begin with a metric scheduler step. -/
theorem coupled_saved_cons (e : ℕ) (rest : List Event)
    (hc : coupled rest = true)
    (hh : ∀ m : ℚ, rest.head? ≠ some (Event.schedSteppedMetric m)) :
    coupled (Event.saved e :: rest) = true := by
  cases rest with
  | nil => rfl
  | cons r rs =>
    have hp : pairOK (Event.saved e) r = true := by
      cases r with
      | schedSteppedMetric m => exact absurd rfl (hh m)
      | trained e1 => rfl
      | validated e1 t1 => rfl
      | schedStepped => rfl
      | saved e1 => rfl
    show (pairOK (Event.saved e) r && coupled (r :: rs)) = true
    rw [hp, hc]
    rfl

/-- One epoch block — train, validate, scheduler step, save — is coupled in
front of any coupled continuation that does not begin with a metric step. -/
theorem coupled_epoch_block (e : ℕ) (t : ℚ) (sev : Event) (rest : List Event)
    (hs : sev = Event.schedSteppedMetric t ∨ sev = Event.schedStepped)
    (hc : coupled rest = true)
    (hh : ∀ m : ℚ, rest.head? ≠ some (Event.schedSteppedMetric m)) :
    coupled (Event.trained e :: Event.validated e t :: sev
      :: Event.saved e :: rest) = true := by
  have hsaved := coupled_saved_cons e rest hc hh
  have h2 : pairOK (Event.validated e t) sev = true := by
    cases hs with
    | inl h => subst h; simp [pairOK]
    | inr h => subst h; rfl
  have h3 : pairOK sev (Event.saved e) = true := by
    cases hs with
    | inl h => subst h; rfl
    | inr h => subst h; rfl
  show (pairOK (Event.trained e) (Event.validated e t)
    && (pairOK (Event.validated e t) sev
    && (pairOK sev (Event.saved e) && coupled (Event.saved e :: rest)))) = true
  rw [h2, h3, hsaved]
  rfl

/-- In the epoch loop's trace every metric scheduler step directly follows
its epoch's validation event and carries that event's top-1 accuracy, and
the trace never begins with a scheduler step. -/
theorem epochLoop_coupled (env : Env P G O S) (tB vB : List Batch) :
    ∀ (es : List ℕ) (st : RunState P G O S),
      coupled ((epochLoop env tB vB es st).2.2) = true
      ∧ ∀ m : ℚ, ((epochLoop env tB vB es st).2.2).head?
          ≠ some (Event.schedSteppedMetric m) := by
  intro es
  induction es with
  | nil =>
    intro st
    exact ⟨rfl, fun m h => by simp [epochLoop] at h⟩
  | cons e es ih =>
    intro st
    refine ⟨?_, ?_⟩
    · simp only [epochLoop]
      exact coupled_epoch_block e _ _ _ (schedulerStep_event env st.sched _)
        ((ih _).1) ((ih _).2)
    · intro m h
      simp [epochLoop] at h

/-- The trace of a run: one validation at epoch 0, then the four-step block
of every epoch from the start epoch to the configured total, in order. -/
theorem runFrom_shape (env : Env P G O S) (total_epochs : ℕ)
    (tB vB : List Batch) (st : RunState P G O S) (start_epoch : ℕ) :
    ((runFrom env total_epochs tB vB st start_epoch).2.2).map eshape
      = EventShape.validatedS 0
        :: (List.range' start_epoch (total_epochs + 1 - start_epoch)).flatMap
          (fun e => [.trainedS e, .validatedS e,
            if st.sched.kind = .reduceLROnPlateau then EventShape.schedSteppedMetricS
            else EventShape.schedSteppedS, .savedS e]) := by
  simp only [runFrom, List.map_cons]
  rw [epochLoop_shape]
  rfl

/-- The whole run trace is coupled: every metric scheduler step carries the
top-1 accuracy of the validation pass directly before it. -/
theorem runFrom_coupled (env : Env P G O S) (total_epochs : ℕ)
    (tB vB : List Batch) (st : RunState P G O S) (start_epoch : ℕ) :
    coupled ((runFrom env total_epochs tB vB st start_epoch).2.2) = true := by
  simp only [runFrom]
  obtain ⟨hc, hh⟩ := epochLoop_coupled env tB vB
    (List.range' start_epoch (total_epochs + 1 - start_epoch)) _
  cases hr : (epochLoop env tB vB
      (List.range' start_epoch (total_epochs + 1 - start_epoch)) _).2.2 with
  | nil => rfl
  | cons r rs =>
    rw [hr] at hc hh
    have hp : pairOK
        (Event.validated 0 (validate env vB st.net 0 st.loggers).2.1.top1_acc) r = true := by
      cases r with
      | schedSteppedMetric m => exact absurd rfl (hh m)
      | trained e1 => rfl
      | validated e1 t1 => rfl
      | schedStepped => rfl
      | saved e1 => rfl
    show (pairOK
        (Event.validated 0 (validate env vB st.net 0 st.loggers).2.1.top1_acc) r
      && coupled (r :: rs)) = true
    rw [hp, hc]
    rfl

/-- With no `--checkpoint` flag the driver runs from fresh loggers starting
at epoch 1. -/
theorem run_epochs_none (env : Env P G O S) (total_epochs : ℕ)
    (tB vB : List Batch) (net0 : Net P G) (opt0 : O) (sched0 : Scheduler S)
    (store : Store P O S) :
    run_epochs env total_epochs tB vB net0 opt0 sched0 store none
      = some (runFrom env total_epochs tB vB
          ⟨net0, opt0, sched0, initialize_loggers⟩ 1) := rfl

/-- With a checkpoint path naming a stored checkpoint the driver restores
its state and runs starting at the saved epoch plus one. -/
theorem run_epochs_some (env : Env P G O S) (total_epochs : ℕ)
    (tB vB : List Batch) (net0 : Net P G) (opt0 : O) (sched0 : Scheduler S)
    (store : Store P O S) (p : ℕ) (c : Checkpoint P O S)
    (hc : store p = some c) :
    run_epochs env total_epochs tB vB net0 opt0 sched0 store (some p)
      = some (runFrom env total_epochs tB vB
          ⟨⟨c.model, net0.grads, net0.trainingMode⟩, c.optimizer,
            ⟨sched0.kind, c.scheduler⟩, c.loggers⟩ (c.epoch + 1)) := by
  simp [run_epochs, load_checkpoint, hc]

/-- The training loop touches only the `train_loss` column. -/
theorem trainLoop_preserves_val (env : Env P G O S) (bs : List Batch) :
    ∀ (net : Net P G) (opt : O) (i : ℕ) (acc : ℚ) (L : Loggers) (epoch : ℕ),
      ((trainLoop env bs net opt i acc L epoch).2.2).val_top1_acc = L.val_top1_acc
      ∧ ((trainLoop env bs net opt i acc L epoch).2.2).val_top5_acc = L.val_top5_acc
      ∧ ((trainLoop env bs net opt i acc L epoch).2.2).val_loss = L.val_loss := by
  induction bs with
  | nil => intro net opt i acc L epoch; exact ⟨rfl, rfl, rfl⟩
  | cons b bs ih =>
    intro net opt i acc L epoch
    simp only [trainLoop]
    by_cases h9 : i % 10 = 9
    · rw [if_pos h9]
      exact ih _ _ _ _ _ _
    · rw [if_neg h9]
      exact ih _ _ _ _ _ _

/-- `validate` appends exactly one entry at the given epoch to each of the
three validation columns and leaves `train_loss` alone. -/
theorem validate_val_epochs (env : Env P G O S) (vB : List Batch)
    (net : Net P G) (e : ℕ) (L : Loggers) :
    (validate env vB net e L).2.2.val_top1_acc.epochs = L.val_top1_acc.epochs ++ [e]
    ∧ (validate env vB net e L).2.2.val_top5_acc.epochs = L.val_top5_acc.epochs ++ [e]
    ∧ (validate env vB net e L).2.2.val_loss.epochs = L.val_loss.epochs ++ [e]
    ∧ (validate env vB net e L).2.2.train_loss = L.train_loss :=
  ⟨rfl, rfl, rfl, rfl⟩

/-- Across the epoch loop, each epoch number is appended once, in order, to
the epoch lists of the three validation columns. -/
theorem epochLoop_val_epochs (env : Env P G O S) (tB vB : List Batch) :
    ∀ (es : List ℕ) (st : RunState P G O S),
      ((epochLoop env tB vB es st).1.loggers).val_top1_acc.epochs
        = st.loggers.val_top1_acc.epochs ++ es
      ∧ ((epochLoop env tB vB es st).1.loggers).val_top5_acc.epochs
        = st.loggers.val_top5_acc.epochs ++ es
      ∧ ((epochLoop env tB vB es st).1.loggers).val_loss.epochs
        = st.loggers.val_loss.epochs ++ es := by
  intro es
  induction es with
  | nil =>
    intro st
    simp [epochLoop]
  | cons e es ih =>
    intro st
    simp only [epochLoop]
    obtain ⟨ih1, ih5, ihl⟩ := ih ⟨(validate env vB (train env tB st.net st.opt e st.loggers).1 e
        (train env tB st.net st.opt e st.loggers).2.2).1,
      (train env tB st.net st.opt e st.loggers).2.1,
      (schedulerStep env st.sched
        (validate env vB (train env tB st.net st.opt e st.loggers).1 e
          (train env tB st.net st.opt e st.loggers).2.2).2.1.top1_acc).1,
      (validate env vB (train env tB st.net st.opt e st.loggers).1 e
        (train env tB st.net st.opt e st.loggers).2.2).2.2⟩
    obtain ⟨hv1, hv5, hvl, _⟩ := validate_val_epochs env vB
      (train env tB st.net st.opt e st.loggers).1 e
      (train env tB st.net st.opt e st.loggers).2.2
    obtain ⟨ht1, ht5, htl⟩ := trainLoop_preserves_val env tB
      ⟨st.net.params, st.net.grads, true⟩ st.opt 0 0 st.loggers e
    refine ⟨?_, ?_, ?_⟩
    · rw [ih1, hv1]
      show ((train env tB st.net st.opt e st.loggers).2.2.val_top1_acc.epochs ++ [e]) ++ es
        = st.loggers.val_top1_acc.epochs ++ e :: es
      rw [show (train env tB st.net st.opt e st.loggers).2.2.val_top1_acc
          = st.loggers.val_top1_acc from ht1]
      simp
    · rw [ih5, hv5]
      show ((train env tB st.net st.opt e st.loggers).2.2.val_top5_acc.epochs ++ [e]) ++ es
        = st.loggers.val_top5_acc.epochs ++ e :: es
      rw [show (train env tB st.net st.opt e st.loggers).2.2.val_top5_acc
          = st.loggers.val_top5_acc from ht5]
      simp
    · rw [ihl, hvl]
      show ((train env tB st.net st.opt e st.loggers).2.2.val_loss.epochs ++ [e]) ++ es
        = st.loggers.val_loss.epochs ++ e :: es
      rw [show (train env tB st.net st.opt e st.loggers).2.2.val_loss
          = st.loggers.val_loss from htl]
      simp

/-- A run appends epoch 0 and then each processed epoch number, in order, to
the epoch lists of the three validation metrics, whatever logger state it
starts from. -/
theorem runFrom_val_epochs (env : Env P G O S) (total_epochs : ℕ)
    (tB vB : List Batch) (st : RunState P G O S) (start_epoch : ℕ) :
    ((runFrom env total_epochs tB vB st start_epoch).1.loggers).val_top1_acc.epochs
      = st.loggers.val_top1_acc.epochs
        ++ 0 :: List.range' start_epoch (total_epochs + 1 - start_epoch)
    ∧ ((runFrom env total_epochs tB vB st start_epoch).1.loggers).val_top5_acc.epochs
      = st.loggers.val_top5_acc.epochs
        ++ 0 :: List.range' start_epoch (total_epochs + 1 - start_epoch)
    ∧ ((runFrom env total_epochs tB vB st start_epoch).1.loggers).val_loss.epochs
      = st.loggers.val_loss.epochs
        ++ 0 :: List.range' start_epoch (total_epochs + 1 - start_epoch) := by
  simp only [runFrom]
  obtain ⟨h1, h5, hl⟩ := epochLoop_val_epochs env tB vB
    (List.range' start_epoch (total_epochs + 1 - start_epoch))
    ⟨(validate env vB st.net 0 st.loggers).1, st.opt, st.sched,
      (validate env vB st.net 0 st.loggers).2.2⟩
  obtain ⟨hv1, hv5, hvl, _⟩ := validate_val_epochs env vB st.net 0 st.loggers
  refine ⟨?_, ?_, ?_⟩
  · rw [h1]
    show (validate env vB st.net 0 st.loggers).2.2.val_top1_acc.epochs ++ _ = _
    rw [hv1]
    simp
  · rw [h5]
    show (validate env vB st.net 0 st.loggers).2.2.val_top5_acc.epochs ++ _ = _
    rw [hv5]
    simp
  · rw [hl]
    show (validate env vB st.net 0 st.loggers).2.2.val_loss.epochs ++ _ = _
    rw [hvl]
    simp

/-- C3: the epoch driver starts at epoch 1 with no checkpoint path and at
the saved epoch plus one with a loaded one; its trace is one validation at
epoch 0 followed, for each epoch number from the start epoch up to and
including the configured total (and no further), by exactly: a training
pass, a validation pass, one scheduler step — a metric step carrying that
validation's top-1 accuracy when the scheduler is `ReduceLROnPlateau`, a
plain step otherwise — and a checkpoint save. -/
theorem C3_epoch_driver (env : Env P G O S) (total_epochs : ℕ)
    (tB vB : List Batch) (net0 : Net P G) (opt0 : O) (sched0 : Scheduler S)
    (store : Store P O S) (p : ℕ) (c : Checkpoint P O S)
    (st : RunState P G O S) (start_epoch : ℕ) (hc : store p = some c) :
    run_epochs env total_epochs tB vB net0 opt0 sched0 store none
      = some (runFrom env total_epochs tB vB
          ⟨net0, opt0, sched0, initialize_loggers⟩ 1)
    ∧ run_epochs env total_epochs tB vB net0 opt0 sched0 store (some p)
      = some (runFrom env total_epochs tB vB
          ⟨⟨c.model, net0.grads, net0.trainingMode⟩, c.optimizer,
            ⟨sched0.kind, c.scheduler⟩, c.loggers⟩ (c.epoch + 1))
    ∧ ((runFrom env total_epochs tB vB st start_epoch).2.2).map eshape
      = EventShape.validatedS 0
        :: (List.range' start_epoch (total_epochs + 1 - start_epoch)).flatMap
          (fun e => [.trainedS e, .validatedS e,
            if st.sched.kind = .reduceLROnPlateau then EventShape.schedSteppedMetricS
            else EventShape.schedSteppedS, .savedS e])
    ∧ coupled ((runFrom env total_epochs tB vB st start_epoch).2.2) = true :=
  ⟨run_epochs_none env total_epochs tB vB net0 opt0 sched0 store,
   run_epochs_some env total_epochs tB vB net0 opt0 sched0 store p c hc,
   runFrom_shape env total_epochs tB vB st start_epoch,
   runFrom_coupled env total_epochs tB vB st start_epoch⟩

/-- C3 at a concrete input: a two-epoch run with a plateau scheduler, a
stored checkpoint at epoch 3 under file name 7, and a resume state. -/
theorem C3_epoch_driver_witness :
    run_epochs envId 2 [] [] netId 0 ⟨.reduceLROnPlateau, 0⟩ store0 none
      = some (runFrom envId 2 [] []
          ⟨netId, 0, ⟨.reduceLROnPlateau, 0⟩, initialize_loggers⟩ 1)
    ∧ run_epochs envId 2 [] [] netId 0 ⟨.reduceLROnPlateau, 0⟩ store0 (some 7)
      = some (runFrom envId 2 [] []
          ⟨⟨ckpt0.model, netId.grads, netId.trainingMode⟩, ckpt0.optimizer,
            ⟨SchedKind.reduceLROnPlateau, ckpt0.scheduler⟩, ckpt0.loggers⟩
          (ckpt0.epoch + 1))
    ∧ ((runFrom envId 2 [] [] st0 1).2.2).map eshape
      = EventShape.validatedS 0
        :: (List.range' 1 (2 + 1 - 1)).flatMap
          (fun e => [.trainedS e, .validatedS e,
            if st0.sched.kind = .reduceLROnPlateau then EventShape.schedSteppedMetricS
            else EventShape.schedSteppedS, .savedS e])
    ∧ coupled ((runFrom envId 2 [] [] st0 1).2.2) = true :=
  C3_epoch_driver envId 2 [] [] netId 0 ⟨.reduceLROnPlateau, 0⟩ store0 7 ckpt0
    st0 1 rfl

/-- C10: every run — fresh or resumed — performs one full validation pass
before its first training epoch and logs its three validation metrics with
epoch number 0: the first validation entry a run appends always carries
epoch 0, whatever the resume epoch, and the run's trace begins with the
epoch-0 validation event. -/
theorem C10_epoch_zero_validation (env : Env P G O S) (total_epochs : ℕ)
    (tB vB : List Batch) (net0 : Net P G) (opt0 : O) (sched0 : Scheduler S)
    (store : Store P O S) (p : ℕ) (c : Checkpoint P O S)
    (st : RunState P G O S) (start_epoch : ℕ) (hc : store p = some c) :
    run_epochs env total_epochs tB vB net0 opt0 sched0 store none
      = some (runFrom env total_epochs tB vB
          ⟨net0, opt0, sched0, initialize_loggers⟩ 1)
    ∧ run_epochs env total_epochs tB vB net0 opt0 sched0 store (some p)
      = some (runFrom env total_epochs tB vB
          ⟨⟨c.model, net0.grads, net0.trainingMode⟩, c.optimizer,
            ⟨sched0.kind, c.scheduler⟩, c.loggers⟩ (c.epoch + 1))
    ∧ ((runFrom env total_epochs tB vB st start_epoch).1.loggers).val_top1_acc.epochs
      = st.loggers.val_top1_acc.epochs
        ++ 0 :: List.range' start_epoch (total_epochs + 1 - start_epoch)
    ∧ ((runFrom env total_epochs tB vB st start_epoch).1.loggers).val_top5_acc.epochs
      = st.loggers.val_top5_acc.epochs
        ++ 0 :: List.range' start_epoch (total_epochs + 1 - start_epoch)
    ∧ ((runFrom env total_epochs tB vB st start_epoch).1.loggers).val_loss.epochs
      = st.loggers.val_loss.epochs
        ++ 0 :: List.range' start_epoch (total_epochs + 1 - start_epoch)
    ∧ (((runFrom env total_epochs tB vB st start_epoch).2.2).map eshape).head?
      = some (EventShape.validatedS 0) := by
  obtain ⟨h1, h5, hl⟩ := runFrom_val_epochs env total_epochs tB vB st start_epoch
  refine ⟨run_epochs_none env total_epochs tB vB net0 opt0 sched0 store,
    run_epochs_some env total_epochs tB vB net0 opt0 sched0 store p c hc,
    h1, h5, hl, ?_⟩
  rw [runFrom_shape env total_epochs tB vB st start_epoch]
  rfl

/-- C10 at a concrete input: the same two-epoch run, checkpoint and resume
state as the C3 witness, resuming at epoch 4. -/
theorem C10_epoch_zero_validation_witness :
    run_epochs envId 2 [] [] netId 0 ⟨.reduceLROnPlateau, 0⟩ store0 none
      = some (runFrom envId 2 [] []
          ⟨netId, 0, ⟨.reduceLROnPlateau, 0⟩, initialize_loggers⟩ 1)
    ∧ run_epochs envId 2 [] [] netId 0 ⟨.reduceLROnPlateau, 0⟩ store0 (some 7)
      = some (runFrom envId 2 [] []
          ⟨⟨ckpt0.model, netId.grads, netId.trainingMode⟩, ckpt0.optimizer,
            ⟨SchedKind.reduceLROnPlateau, ckpt0.scheduler⟩, ckpt0.loggers⟩
          (ckpt0.epoch + 1))
    ∧ ((runFrom envId 2 [] [] st0 4).1.loggers).val_top1_acc.epochs
      = st0.loggers.val_top1_acc.epochs ++ 0 :: List.range' 4 (2 + 1 - 4)
    ∧ ((runFrom envId 2 [] [] st0 4).1.loggers).val_top5_acc.epochs
      = st0.loggers.val_top5_acc.epochs ++ 0 :: List.range' 4 (2 + 1 - 4)
    ∧ ((runFrom envId 2 [] [] st0 4).1.loggers).val_loss.epochs
      = st0.loggers.val_loss.epochs ++ 0 :: List.range' 4 (2 + 1 - 4)
    ∧ (((runFrom envId 2 [] [] st0 4).2.2).map eshape).head?
      = some (EventShape.validatedS 0) :=
  C10_epoch_zero_validation envId 2 [] [] netId 0 ⟨.reduceLROnPlateau, 0⟩ store0
    7 ckpt0 st0 4 rfl

end ShuffleNet
